import Mathlib

/-!
Shallow embedding of `src/hand.ts` (class `Hand`), a single-hand Texas
Hold'em betting engine.  Chip amounts are modelled as `Int` (the source
uses JS numbers; all chip arithmetic in scope is integral).  The three
JS `Set` fields are modelled as `Finset String`; the insertion-ordered
JS object `_bets` is modelled as an association list so that
`Object.entries` order (first insertion first) is preserved, which
`_isBetsEqual` depends on.  External collaborators (deck, sleep,
givePots, the odds calculator) do not touch engine state, so
`_showdown` is the identity on the state.
-/

namespace Hand

/-- A seat: `{playerId, stack}` from `src/hand.ts`. -/
structure Seat where
  playerId : String
  stack : Int
deriving Repr, DecidableEq, Inhabited

/-- `GameConfigType` from `src/hand.ts`. -/
structure GameConfig where
  smallBlind : Int
  bigBlind : Int
  antes : Int
  timeLimit : Int
deriving Repr, DecidableEq, Inhabited

/-- `fold | bet(amount)` actions (`PlayerAction` in `src/hand.ts`). -/
inductive PlayerAction where
  | fold : PlayerAction
  | bet (amount : Int) : PlayerAction
deriving Repr, DecidableEq, Inhabited

/-- The mutable fields of class `Hand`. -/
structure HandState where
  seats : List Seat
  gameConfig : GameConfig
  seatIndex : Int
  startWith : Int
  communityCards : List String
  holeCards : List (String × List String)
  potAmount : Int
  bets : List (String × Int)
  minRaise : Int
  deck : List String
  deckPointer : Nat
  betSet : Finset String
  foldSet : Finset String
  allInSet : Finset String
deriving DecidableEq, Inhabited

/-- The fresh state built by the constructor (before `start`). -/
def mkHand (seats : List Seat) (cfg : GameConfig) : HandState :=
  { seats := seats
    gameConfig := cfg
    seatIndex := 0
    startWith := 0
    communityCards := []
    holeCards := []
    potAmount := 0
    bets := []
    minRaise := 0
    deck := []
    deckPointer := 0
    betSet := ∅
    foldSet := ∅
    allInSet := ∅ }

/-- JS `%` (remainder keeps the sign of the dividend). -/
def jsRem (a b : Int) : Int :=
  if 0 ≤ a then a % b else -((-a) % b)

/-- `getSeatByPlayerId`: first seat whose `playerId` matches. -/
def getSeatByPlayerId (s : HandState) (pid : String) : Option Seat :=
  s.seats.find? (fun t => t.playerId == pid)

/-- Mutating `seat.stack -= bet` on the first matching seat. -/
def updStack : List Seat → String → Int → List Seat
  | [], _, _ => []
  | t :: rest, pid, amt =>
    if t.playerId == pid then { t with stack := t.stack - amt } :: rest
    else t :: updStack rest pid amt

/-- Current value of `_bets[pid]`, with `|| 0` defaulting. -/
def betsGet (bets : List (String × Int)) (pid : String) : Int :=
  ((bets.find? (fun e => e.1 == pid)).map Prod.snd).getD 0

/-- `_bets[pid] += amt`, creating the entry (at the end, in JS object
insertion order) when absent. -/
def betsAdd (bets : List (String × Int)) (pid : String) (amt : Int) :
    List (String × Int) :=
  if (bets.find? (fun e => e.1 == pid)).isSome then
    bets.map (fun e => if e.1 == pid then (e.1, e.2 + amt) else e)
  else bets ++ [(pid, amt)]

/-- `_bet(playerId, bet)` from `src/hand.ts` lines 156-168: deduct from
the seat stack, mark all-in (stack hits 0) or acted, add to the pot,
then update `minRaise` with the pre-bet ledger value and add to the
ledger. -/
def bet (s : HandState) (pid : String) (amt : Int) : HandState :=
  let s1 :=
    match getSeatByPlayerId s pid with
    | some seat =>
        let s' := { s with
          seats := updStack s.seats pid amt
          potAmount := s.potAmount + amt }
        if seat.stack - amt = 0 then
          { s' with allInSet := insert pid s'.allInSet }
        else
          { s' with betSet := insert pid s'.betSet }
    | none => s
  { s1 with
    minRaise := max (amt - betsGet s1.bets pid) s1.minRaise
    bets := betsAdd s1.bets pid amt }

/-- `this._seats[idx]` (undefined off the end). -/
def seatAt (s : HandState) (idx : Int) : Option Seat :=
  if 0 ≤ idx then s.seats[idx.toNat]? else none

/-- One unfolding step of the recursive `_nextSeat`, fuelled: the JS
original recurses with no base case, so exhausted fuel (`none`) means
the original keeps recursing (or hit an undefined seat and crashed).
Returns the final `_seatIndex` together with the found seat. -/
def nextSeatAux (s : HandState) : Int → Nat → Option (Int × Seat)
  | _, 0 => none
  | idx, fuel + 1 =>
    let idx' := jsRem (idx + 1) (s.seats.length : Int)
    match seatAt s idx' with
    | none => none
    | some seat =>
      if seat.playerId ∈ s.foldSet ∨ seat.playerId ∈ s.allInSet then
        nextSeatAux s idx' fuel
      else some (idx', seat)

/-- `_nextSeat()` with enough fuel to visit every seat once. -/
def nextSeat (s : HandState) : Option (Int × Seat) :=
  nextSeatAux s s.seatIndex (s.seats.length + 1)

/-- `Object.entries(_bets)` filtered to non-folded players, values
only (`_isBetsEqual`'s `betsInPlay`). -/
def betsInPlay (s : HandState) : List Int :=
  (s.bets.filter (fun e => e.1 ∉ s.foldSet)).map Prod.snd

/-- `_isBetsEqual`: `betsInPlay[0] === sum / length`.  On an empty
list the JS `reduce` throws (`none` here); the float division is exact
at engine magnitudes, so it is embedded as
`first * length = sum` over `Int`. -/
def isBetsEqualO (s : HandState) : Option Bool :=
  match betsInPlay s with
  | [] => none
  | x :: xs => some (decide (x * ((x :: xs).length : Int) = (x :: xs).sum))

/-- `_resetSeatIndex`: `-1` heads-up, `0` otherwise. -/
def resetSeatIndex (s : HandState) : HandState :=
  { s with seatIndex := if s.seats.length = 2 then -1 else 0 }

/-- `_resetBets`: zero every ledger entry (keys keep their positions)
and clear the acted set. -/
def resetBets (s : HandState) : HandState :=
  { s with bets := s.bets.map (fun e => (e.1, 0)), betSet := ∅ }

/-- `_flop`: reveal 3 cards, reset cursor, `minRaise`, and ledger. -/
def flop (s : HandState) : HandState :=
  resetBets { (resetSeatIndex
    { s with
      communityCards := s.communityCards ++ ((s.deck.drop s.deckPointer).take 3)
      deckPointer := s.deckPointer + 3 }) with
    minRaise := s.gameConfig.bigBlind }

/-- `_turn`: reveal 1 card, reset cursor, `minRaise`, and ledger. -/
def turn (s : HandState) : HandState :=
  resetBets { (resetSeatIndex
    { s with
      communityCards := s.communityCards ++ ((s.deck.drop s.deckPointer).take 1)
      deckPointer := s.deckPointer + 1 }) with
    minRaise := s.gameConfig.bigBlind }

/-- `_river`: same shape as `_turn`. -/
def river (s : HandState) : HandState :=
  resetBets { (resetSeatIndex
    { s with
      communityCards := s.communityCards ++ ((s.deck.drop s.deckPointer).take 1)
      deckPointer := s.deckPointer + 1 }) with
    minRaise := s.gameConfig.bigBlind }

/-- `_showdown` only calls the external evaluator and `givePots`; it
does not mutate engine state. -/
def showdown (s : HandState) : HandState := s

/-- `_dealCards`: two consecutive deck cards per seat. -/
def dealCards (deck : List String) (seats : List Seat) :
    List (String × List String) :=
  seats.enum.map (fun p => (p.2.playerId, (deck.drop (p.1 * 2)).take 2))

/-- `start()` from `src/hand.ts` lines 211-223, parametrised by the
injected deck.  `none` when a blind poster cannot be found (empty
seat list). -/
def start (deck : List String) (s : HandState) : Option HandState :=
  let s0 := { s with
    deck := deck
    holeCards := dealCards deck s.seats
    deckPointer := s.seats.length * 2 }
  let s1 := resetSeatIndex s0
  match nextSeat s1 with
  | none => none
  | some (i1, seat1) =>
    let s2 := bet { s1 with seatIndex := i1 } seat1.playerId
      s1.gameConfig.smallBlind
    match nextSeat s2 with
    | none => none
    | some (i2, seat2) =>
      let s3 := bet { s2 with seatIndex := i2 } seat2.playerId
        s2.gameConfig.bigBlind
      some { s3 with
        betSet := ∅
        startWith := i2
        minRaise := s3.gameConfig.bigBlind }

/-- `isValidBet(playerId, amount)` from `src/hand.ts` lines 301-338.
`Math.max(...[])` is `-Infinity`, under which both comparisons that
use it are false, hence the `Option`-matched `maxBet`. -/
def isValidBet (s : HandState) (pid : String) (amount : Int) : Bool :=
  match getSeatByPlayerId s pid with
  | none => false
  | some seat =>
    if 0 < seat.stack then
      let call := s.minRaise - betsGet s.bets pid
      if amount = seat.stack then true
      else if amount < seat.stack then
        let totalOtherBets := (s.bets.map Prod.snd).sum
        let allInsLessMaxBet :=
          match (s.bets.map Prod.snd).max? with
          | some m =>
              decide (∀ id ∈ s.allInSet, betsGet s.bets id < m) &&
              decide (s.gameConfig.bigBlind < m)
          | none => false
        if (s.allInSet = ∅ ∨ (s.allInSet ≠ ∅ ∧ allInsLessMaxBet = true)) ∧
           (amount = call ∨ 2 * call ≤ amount ∨
             (amount = 0 ∧ totalOtherBets = 0)) then true
        else if s.allInSet ≠ ∅ ∧ allInsLessMaxBet = false then true
        else false
      else false
    else false

/-- The union `new Set([...fold, ...bet, ...allIn]).size`. -/
def unionCard (s : HandState) : Nat :=
  (s.foldSet ∪ s.betSet ∪ s.allInSet).card

/-- Applying the player's action inside `act` (chips or fold), before
the two street triggers run.  Invalid bets are silently dropped. -/
def applyAction (s : HandState) (pid : String) (a : PlayerAction) :
    HandState :=
  match a with
  | .bet amt => if isValidBet s pid amt then bet s pid amt else s
  | .fold => { s with foldSet := insert pid s.foldSet }

/-- The all-in cascade in `act` (independent `if`s, so one call can
run flop, turn, river and showdown in sequence). -/
def cascade (s : HandState) : HandState :=
  let s1 := if s.communityCards.length = 0 then flop s else s
  let s2 := if s1.communityCards.length = 3 then turn s1 else s1
  let s3 := if s2.communityCards.length = 4 then river s2 else s2
  if s3.communityCards.length = 5 then showdown s3 else s3

/-- The all-in trigger: `allInSet.size + 1 === seats.length`. -/
def allInStage (s : HandState) : HandState :=
  if s.allInSet.card + 1 = s.seats.length then cascade s else s

/-- The closure trigger advances exactly one street (`else if` chain). -/
def advanceOne (s : HandState) : HandState :=
  if s.communityCards.length = 0 then flop s
  else if s.communityCards.length = 3 then turn s
  else if s.communityCards.length = 4 then river s
  else if s.communityCards.length = 5 then showdown s
  else s

/-- Result of an `act` call: normal return, a thrown `Error` (with the
state as mutated up to the throw), or non-termination / crash of an
internal helper (`_nextSeat` recursing forever, `reduce` on `[]`). -/
inductive ActResult where
  | ok (s : HandState) : ActResult
  | thrown (s : HandState) (msg : String) : ActResult
  | stuck : ActResult
deriving DecidableEq, Inhabited

/-- Evaluating the closure trigger on the post-action state. -/
def closureStep (t : HandState) : ActResult :=
  if t.seats.length ≤ unionCard t then
    match isBetsEqualO t with
    | none => .stuck
    | some true => .ok (advanceOne t)
    | some false => .ok t
  else .ok t

/-- `act(playerId, action)` from `src/hand.ts` lines 268-300.  Note
that `_nextSeat()` advances `_seatIndex` before the turn check, so a
rejected call still leaves the cursor moved. -/
def act (s : HandState) (pid : String) (a : PlayerAction) : ActResult :=
  match nextSeat s with
  | none => .stuck
  | some (i, seat) =>
    let s1 := { s with seatIndex := i }
    if seat.playerId = pid then
      closureStep (allInStage (applyAction s1 pid a))
    else
      .thrown s1 "Can't act"

/-- The state reached when `act` runs the player's action and the
all-in trigger, just before the closure trigger is evaluated.  `none`
when the call is out of turn or the cursor diverges. -/
def actApplied (s : HandState) (pid : String) (a : PlayerAction) :
    Option HandState :=
  match nextSeat s with
  | none => none
  | some (i, seat) =>
    if seat.playerId = pid then
      some (allInStage (applyAction { s with seatIndex := i } pid a))
    else none

/-- The state after an `act` call, keeping the pre-call state when the
helper diverges (`stuck` has no resulting state). -/
def actState (s : HandState) (pid : String) (a : PlayerAction) :
    HandState :=
  match act s pid a with
  | .ok s' => s'
  | .thrown s' _ => s'
  | .stuck => s

/-- Whether an `act` call returned normally. -/
def actIsOk : ActResult → Bool
  | .ok _ => true
  | _ => false

/-- The thrown message of an `act` call, if any. -/
def actErr : ActResult → Option String
  | .thrown _ msg => some msg
  | _ => none

/-- The state carried by a normal or thrown `act` result. -/
def actResState : ActResult → Option HandState
  | .ok s => some s
  | .thrown s _ => some s
  | .stuck => none

/-- Total chips in play: seat stacks plus the single pot. -/
def chipSum (s : HandState) : Int :=
  (s.seats.map Seat.stack).sum + s.potAmount

end Hand

namespace Hand

/-! ### Concrete scenarios (test vectors for the claims)

Deck contents never influence the betting engine; the decks below are
arbitrary distinct card strings of sufficient length. -/

/-- Blinds 10/20, as in the repository's test suite. -/
def cfg0 : GameConfig := ⟨10, 20, 0, 10⟩

def deck3 : List String :=
  ["Ah", "Kh", "Qh", "Jh", "Th", "9h", "8h", "7h", "6h", "5h", "4h"]

def deck4 : List String :=
  ["Ad", "Kd", "Qd", "Jd", "Td", "9d", "8d", "7d", "6d", "5d", "4d", "3d", "2d"]

def deck2 : List String :=
  ["Ac", "Kc", "Qc", "Jc", "Tc", "9c", "8c", "7c", "6c"]

/-- Three 1000-chip players a, b, c, right after `start()`. -/
def three0 : HandState :=
  (start deck3 (mkHand [⟨"a", 1000⟩, ⟨"b", 1000⟩, ⟨"c", 1000⟩] cfg0)).getD default

/-- `three0` after a raises to 40 (a legal double of the 20 call). -/
def c4S1 : HandState := actState three0 "a" (.bet 40)

/-- `c4S1` after b re-raises by 70 (to 80, the minimum re-raise). -/
def c4S2 : HandState := actState c4S1 "b" (.bet 70)

/-- `c4S2` after c calls 40 (to 60). -/
def c9S3 : HandState := actState c4S2 "c" (.bet 40)

/-- `c9S3` after a calls 20 (to 60). -/
def c9S4 : HandState := actState c9S3 "a" (.bet 20)

/-- `c9S4` after b bets the negative amount -5, which `isValidBet`
accepts because b's call gap is 60 - 80 = -20. -/
def c9S5 : HandState := actState c9S4 "b" (.bet (-5))

/-- Four players; c's 20-chip stack goes all-in on the big blind. -/
def c1S0 : HandState :=
  (start deck4 (mkHand [⟨"a", 1000⟩, ⟨"b", 1000⟩, ⟨"c", 20⟩, ⟨"d", 1000⟩] cfg0)).getD
    default

/-- `c1S0` after d bets 5 (accepted: an all-in matches the maximum bet,
so any sub-stack amount validates). -/
def c1S1 : HandState := actState c1S0 "d" (.bet 5)

/-- `c1S1` after a bets 11 (accepted for the same reason). -/
def c1S2 : HandState := actState c1S1 "a" (.bet 11)

/-- The state `act c1S2 "b" (bet 2)` reaches just before the closure
trigger is evaluated: street bets are b:12, c:20, d:5, a:11. -/
def c1T : HandState := (actApplied c1S2 "b" (.bet 2)).getD default

/-- `c1S2` after b bets 2: the closure trigger fires (12 * 4 = 48 =
12 + 20 + 5 + 11) and the flop is dealt although d and a differ. -/
def c1S3 : HandState := actState c1S2 "b" (.bet 2)

/-- `three0` after the out-of-turn call `act("b", ...)` threw. -/
def c6S1 : HandState := actState three0 "b" (.bet 20)

/-- `three0` after the designated actor a sent the invalid amount 30
(strictly between call 20 and 2 x call 40), silently absorbed. -/
def c7S1 : HandState := actState three0 "a" (.bet 30)

/-- Heads-up 1000/1000 right after `start()`: dealer a posted SB 10. -/
def c3S0 : HandState :=
  (start deck2 (mkHand [⟨"a", 1000⟩, ⟨"b", 1000⟩] cfg0)).getD default

/-- `c3S0` after dealer a completes the small blind (calls 10). -/
def c3S1 : HandState := actState c3S0 "a" (.bet 10)

/-- `c3S1` after b checks: the preflop street closes, flop dealt. -/
def c3S2 : HandState := actState c3S1 "b" (.bet 0)

/-- Heads-up with 50000-chip stacks right after `start()`. -/
def c5S0 : HandState :=
  (start deck2 (mkHand [⟨"a", 50000⟩, ⟨"b", 50000⟩] cfg0)).getD default

/-- `c5S0` after dealer a bets the incremental 25000. -/
def c5S1 : HandState := actState c5S0 "a" (.bet 25000)

/-- A state in which every seated player is all-in: the `_nextSeat`
recursion finds no eligible seat. -/
def c8W : HandState :=
  { mkHand [⟨"a", 0⟩, ⟨"b", 0⟩] cfg0 with allInSet := {"a", "b"} }

/-- `three0` after a calls 20 and b folds (c is next to act). -/
def c10S : HandState := actState (actState three0 "a" (.bet 20)) "b" .fold

/-- The pre-closure state of `act c10S "c" (bet 0)`. -/
def c10T : HandState := (actApplied c10S "c" (.bet 0)).getD default

end Hand

namespace Hand

/-- Running a list of `act` calls (keeping the mutated state of
rejected calls, and the pre-call state when a helper diverges). -/
def runActs (s : HandState) : List (String × PlayerAction) → HandState
  | [] => s
  | (pid, a) :: rest => runActs (actState s pid a) rest

/-- The union `fold ∪ bet ∪ allIn` as a set. -/
def unionSet (s : HandState) : Finset String :=
  s.foldSet ∪ s.betSet ∪ s.allInSet

/-- The seat-registry player ids, in seat order. -/
def pids (s : HandState) : List String := s.seats.map Seat.playerId

/-- The heads-up state just after the dealer p posted the small blind
(p not all-in). -/
def huSB (p q : Seat) (cfg : GameConfig) (deck : List String) : HandState where
  seats := [⟨p.playerId, p.stack - cfg.smallBlind⟩, q]
  gameConfig := cfg
  seatIndex := 0
  startWith := 0
  communityCards := []
  holeCards := dealCards deck [p, q]
  potAmount := cfg.smallBlind
  bets := [(p.playerId, cfg.smallBlind)]
  minRaise := max cfg.smallBlind 0
  deck := deck
  deckPointer := 4
  betSet := {p.playerId}
  foldSet := ∅
  allInSet := ∅

/-- The heads-up state just after the non-dealer q posted the big
blind, parametrised by the resulting acted/all-in sets. -/
def huBB (p q : Seat) (cfg : GameConfig) (deck : List String)
    (bSet aIn : Finset String) : HandState where
  seats := [⟨p.playerId, p.stack - cfg.smallBlind⟩,
            ⟨q.playerId, q.stack - cfg.bigBlind⟩]
  gameConfig := cfg
  seatIndex := 1
  startWith := 0
  communityCards := []
  holeCards := dealCards deck [p, q]
  potAmount := cfg.smallBlind + cfg.bigBlind
  bets := [(p.playerId, cfg.smallBlind), (q.playerId, cfg.bigBlind)]
  minRaise := max cfg.bigBlind (max cfg.smallBlind 0)
  deck := deck
  deckPointer := 4
  betSet := bSet
  foldSet := ∅
  allInSet := aIn

end Hand

namespace Hand

/-! ### Claim theorems -/

/-- C1 (counterexample): in the reachable 4-player state `c1S2`
(c all-in on the big blind for 20, street bets b:10 c:20 d:5 a:11),
b's accepted bet of 2 makes `act` advance preflop to the flop via the
action-closure trigger (the all-in trigger does not apply:
`allInSet.card + 1 = 2 ≠ 4`), although the non-folded, non-all-in
players d and a hold differing street contributions 5 and 11 at the
moment the trigger fires (`_isBetsEqual` only compares the first
non-folded entry with the arithmetic mean: 12 * 4 = 48 = 12+20+5+11). -/
theorem c1_counterexample :
    c1S2.communityCards = [] ∧
    actIsOk (act c1S2 "b" (.bet 2)) = true ∧
    actApplied c1S2 "b" (.bet 2) = some c1T ∧
    c1S3.communityCards.length = 3 ∧
    betsGet c1T.bets "d" = 5 ∧ betsGet c1T.bets "a" = 11 ∧
    "d" ∉ c1T.foldSet ∧ "d" ∉ c1T.allInSet ∧
    "a" ∉ c1T.foldSet ∧ "a" ∉ c1T.allInSet ∧
    c1T.allInSet.card + 1 ≠ c1T.seats.length := by
  decide

/-- C6 (counterexample): after `start()` in the 3-player hand `three0`
the designated actor is a (cursor at index 2), yet the rejected
out-of-turn call `act("b", ...)` both throws the fixed message
"Can't act" (naming neither player) and mutates the turn cursor from 2
to 0 before throwing — and because of that mutation the very same
player b is accepted on the next call, so the rejected call is not
state-preserving. -/
theorem c6_counterexample :
    three0.seatIndex = 2 ∧
    (nextSeat three0).map (fun r => r.2.playerId) = some "a" ∧
    actErr (act three0 "b" (.bet 20)) = some "Can't act" ∧
    (actResState (act three0 "b" (.bet 20))).map HandState.seatIndex = some 0 ∧
    actIsOk (act c6S1 "b" (.bet 20)) = true := by
  decide

/-- C7 (counterexample): in `three0` the designated actor a sends the
invalid amount 30; the call is absorbed without moving chips or cards,
but the cursor has advanced to a's seat, so the next designated actor
is b — a does NOT remain the designated next actor. -/
theorem c7_counterexample :
    (nextSeat three0).map (fun r => r.2.playerId) = some "a" ∧
    isValidBet three0 "a" 30 = false ∧
    actIsOk (act three0 "a" (.bet 30)) = true ∧
    c7S1.potAmount = three0.potAmount ∧
    c7S1.bets = three0.bets ∧
    c7S1.seats = three0.seats ∧
    c7S1.communityCards = three0.communityCards ∧
    (nextSeat c7S1).map (fun r => r.2.playerId) = some "b" := by
  decide

/-- C4 (counterexample): in the reachable no-all-in state `c4S2`
(a raised to 40, b re-raised to 80, `minRaise` 60) player b has call
gap 60 - 80 = -20 and the street contributions sum to 140, yet
`isValidBet("b", 0)` returns true — the claim says a zero amount is
valid only when the gap is 0 or the street sum is 0. -/
theorem c4_counterexample :
    c4S2.allInSet = ∅ ∧
    getSeatByPlayerId c4S2 "b" = some ⟨"b", 920⟩ ∧
    c4S2.minRaise - betsGet c4S2.bets "b" = -20 ∧
    (c4S2.bets.map Prod.snd).sum = 140 ∧
    isValidBet c4S2 "b" 0 = true := by
  decide

/-- C9 (counterexample): in the reachable state `c9S4` (still preflop,
b's ledger entry is 80 while `minRaise` is 60, so b's call gap is
negative) the bet of -5 is accepted by `act` and decreases b's
Bet-Ledger entry from 80 to 75 with no street transition in between. -/
theorem c9_counterexample :
    c9S4.communityCards = [] ∧
    betsGet c9S4.bets "b" = 80 ∧
    actIsOk (act c9S4 "b" (.bet (-5))) = true ∧
    c9S5.communityCards = [] ∧
    betsGet c9S5.bets "b" = 75 := by
  decide

/-- C3 (counterexample): heads-up hand `c3S0` (dealer a): the dealer
posts the small blind and acts first preflop as claimed, but after the
flop is dealt the first designated actor is again the dealer a (the
cursor resets to -1 and `_nextSeat` pre-increments to seat 0), not
the non-dealer b — b's attempt to open the flop throws. -/
theorem c3_counterexample :
    betsGet c3S0.bets "a" = 10 ∧
    (nextSeat c3S0).map (fun r => r.2.playerId) = some "a" ∧
    c3S2.communityCards.length = 3 ∧
    (nextSeat c3S2).map (fun r => (r.1, r.2.playerId)) = some (0, "a") ∧
    actErr (act c3S2 "b" (.bet 20)) = some "Can't act" := by
  decide

end Hand

namespace Hand

/-- C6 (amended): when `act(pid, a)` is called and `pid` is not the
designated actor, the call throws the fixed message "Can't act" (the
same string for every caller, so it names neither the offending player
nor the expected actor) and the resulting state differs from the
pre-call state in exactly one field: the turn cursor has advanced to
the expected actor's seat. -/
theorem c6_amended (s : HandState) (pid : String) (a : PlayerAction)
    (i : Int) (seat : Seat)
    (hn : nextSeat s = some (i, seat)) (hp : seat.playerId ≠ pid) :
    act s pid a = ActResult.thrown { s with seatIndex := i } "Can't act" := by
  unfold act
  rw [hn]
  simp [hp]

/-- C6 witness: the amended theorem at the 3-player hand. -/
theorem c6_amended_witness :
    act three0 "b" (.bet 20) =
      ActResult.thrown { three0 with seatIndex := 0 } "Can't act" :=
  c6_amended three0 "b" (.bet 20) 0 ⟨"a", 1000⟩ (by decide) (by decide)

/-- C8: on a state in which every seated player is folded or all-in,
the `_nextSeat` recursion never returns: no amount of fuel makes the
fuelled unfolding produce a seat, i.e. the original unbounded
recursion runs forever instead of failing fast. -/
theorem c8_cursor_diverges (s : HandState)
    (h : ∀ t ∈ s.seats, t.playerId ∈ s.foldSet ∨ t.playerId ∈ s.allInSet) :
    ∀ idx fuel, nextSeatAux s idx fuel = none := by
  intro idx fuel
  induction fuel generalizing idx with
  | zero => rfl
  | succ n ih =>
    unfold nextSeatAux
    cases hseat : seatAt s (jsRem (idx + 1) s.seats.length) with
    | none => simp [hseat]
    | some seat =>
      have hm : seat ∈ s.seats := by
        unfold seatAt at hseat
        split at hseat
        · exact List.getElem?_mem hseat
        · cases hseat
      simp [hseat, h seat hm, ih]

/-- C8 witness: both seats all-in, the cursor finds nothing. -/
theorem c8_witness : nextSeatAux c8W (-1) 7 = none :=
  c8_cursor_diverges c8W (by decide) (-1) 7

/-- C5: applying `_bet` updates `minRaise` to
`max(previous level, amount - prior street contribution)`; concretely,
heads-up with blinds 10/20 and stacks 50000, the dealer a betting the
incremental 25000 after `start()` yields `minRaise = 24990`. -/
theorem c5_minRaise_formula :
    (∀ (s : HandState) (pid : String) (amt : Int),
      (bet s pid amt).minRaise = max s.minRaise (amt - betsGet s.bets pid)) ∧
    actIsOk (act c5S0 "a" (.bet 25000)) = true ∧
    c5S1.minRaise = 24990 := by
  refine ⟨?_, by decide, by decide⟩
  intro s pid amt
  simp only [bet]
  split
  · split <;> simp [max_comm]
  · simp [max_comm]

-- equation lemmas
lemma act_eq_found (s : HandState) (pid : String) (a : PlayerAction)
    (i : Int) (seat : Seat) (h : nextSeat s = some (i, seat)) :
    act s pid a =
      if seat.playerId = pid then
        closureStep (allInStage (applyAction { s with seatIndex := i } pid a))
      else ActResult.thrown { s with seatIndex := i } "Can't act" := by
  unfold act; rw [h]

lemma actApplied_eq_found (s : HandState) (pid : String) (a : PlayerAction)
    (i : Int) (seat : Seat) (h : nextSeat s = some (i, seat)) :
    actApplied s pid a =
      if seat.playerId = pid then
        some (allInStage (applyAction { s with seatIndex := i } pid a))
      else none := by
  unfold actApplied; rw [h]

/-- C1 (amended): whenever `act` changes the state at the closure
trigger (the post-action state `t` differs from the returned state),
the union {folded, acted, all-in} covers every seat and the FIRST
non-folded ledger entry equals the arithmetic mean of all non-folded
entries (`_isBetsEqual`); pairwise equality of the active players'
contributions is not required. -/
theorem c1_amended (s : HandState) (pid : String) (a : PlayerAction)
    (t s' : HandState)
    (hT : actApplied s pid a = some t)
    (hAct : act s pid a = ActResult.ok s')
    (hNe : s' ≠ t) :
    t.seats.length ≤ unionCard t ∧ isBetsEqualO t = some true ∧
    s' = advanceOne t := by
  cases hn : nextSeat s with
  | none => unfold actApplied at hT; rw [hn] at hT; cases hT
  | some r =>
    obtain ⟨i, seat⟩ := r
    rw [actApplied_eq_found s pid a i seat hn] at hT
    rw [act_eq_found s pid a i seat hn] at hAct
    by_cases hp : seat.playerId = pid
    · rw [if_pos hp] at hT hAct
      injection hT with hT
      rw [hT] at hAct
      unfold closureStep at hAct
      by_cases hu : t.seats.length ≤ unionCard t
      · rw [if_pos hu] at hAct
        cases hbe : isBetsEqualO t with
        | none => rw [hbe] at hAct; cases hAct
        | some b =>
          rw [hbe] at hAct
          cases b with
          | false => injection hAct with h; exact absurd h.symm hNe
          | true => injection hAct with h; exact ⟨hu, rfl, h.symm⟩
      · rw [if_neg hu] at hAct
        injection hAct with h; exact absurd h.symm hNe
    · rw [if_neg hp] at hT; cases hT

/-- C1 witness: the closure trigger characterisation at the 3-player
hand where c's check legitimately closes preflop. -/
theorem c1_amended_witness :
    c10T.seats.length ≤ unionCard c10T ∧ isBetsEqualO c10T = some true ∧
    actState c10S "c" (.bet 0) = advanceOne c10T :=
  c1_amended c10S "c" (.bet 0) c10T (actState c10S "c" (.bet 0))
    (by decide) (by decide) (by decide)

end Hand

namespace Hand

lemma isValidBet_seatIndex (s : HandState) (i : Int) (pid : String)
    (amt : Int) :
    isValidBet { s with seatIndex := i } pid amt = isValidBet s pid amt := rfl

lemma unionCard_seatIndex (s : HandState) (i : Int) :
    unionCard { s with seatIndex := i } = unionCard s := rfl

/-- C7 (amended): an invalid bet by the designated actor is silently
absorbed — no chips move, no street transition fires (when neither
trigger condition already holds) — but the seat cursor has advanced to
that actor's seat, so the actor does NOT remain the designated next
actor. -/
theorem c7_amended (s : HandState) (pid : String) (amt : Int) (i : Int)
    (seat : Seat)
    (hn : nextSeat s = some (i, seat)) (hp : seat.playerId = pid)
    (hinv : isValidBet s pid amt = false)
    (hA : s.allInSet.card + 1 ≠ s.seats.length)
    (hC : unionCard s < s.seats.length) :
    act s pid (PlayerAction.bet amt) = ActResult.ok { s with seatIndex := i } := by
  rw [act_eq_found s pid (PlayerAction.bet amt) i seat hn, if_pos hp]
  have h1 : applyAction { s with seatIndex := i } pid (PlayerAction.bet amt) =
      { s with seatIndex := i } := by
    simp only [applyAction]
    rw [isValidBet_seatIndex, hinv]
    simp
  rw [h1]
  have h2 : allInStage { s with seatIndex := i } = { s with seatIndex := i } := by
    unfold allInStage
    exact if_neg hA
  rw [h2]
  unfold closureStep
  exact if_neg (not_le.mpr hC)

end Hand

namespace Hand

/-- C7 witness: a's invalid 30 at the 3-player hand is absorbed. -/
theorem c7_amended_witness :
    act three0 "a" (PlayerAction.bet 30) =
      ActResult.ok { three0 with seatIndex := 0 } :=
  c7_amended three0 "a" 30 0 ⟨"a", 1000⟩ (by decide) rfl (by decide)
    (by decide) (by decide)

lemma betsGet_map_upd_le (bets : List (String × Int)) (pid q : String)
    (amt : Int) (h : 0 ≤ amt) :
    betsGet bets q ≤
      betsGet (bets.map (fun e => if e.1 == pid then (e.1, e.2 + amt) else e)) q := by
  induction bets with
  | nil => simp [betsGet]
  | cons e tl ih =>
    obtain ⟨k, v⟩ := e
    by_cases hk : (k == q) = true
    · by_cases hp : (k == pid) = true
      · simp [betsGet, List.find?, hk, hp]
        linarith
      · simp [betsGet, List.find?, hk, hp]
    · by_cases hp : (k == pid) = true
      · simpa [betsGet, List.find?, hk, hp] using ih
      · simpa [betsGet, List.find?, hk, hp] using ih

lemma betsGet_append_le (bets : List (String × Int)) (pid q : String)
    (amt : Int) (h : 0 ≤ amt) :
    betsGet bets q ≤ betsGet (bets ++ [(pid, amt)]) q := by
  induction bets with
  | nil =>
    by_cases hp : (pid == q) = true <;> simp [betsGet, List.find?, hp, h]
  | cons e tl ih =>
    by_cases hk : (e.1 == q) = true
    · simp [betsGet, List.find?, hk]
    · simpa [betsGet, List.find?, hk] using ih

lemma betsGet_betsAdd_le (bets : List (String × Int)) (pid q : String)
    (amt : Int) (h : 0 ≤ amt) :
    betsGet bets q ≤ betsGet (betsAdd bets pid amt) q := by
  unfold betsAdd
  split
  · exact betsGet_map_upd_le bets pid q amt h
  · exact betsGet_append_le bets pid q amt h

lemma bet_betsGet_le (s : HandState) (pid q : String) (amt : Int)
    (h : 0 ≤ amt) :
    betsGet s.bets q ≤ betsGet (bet s pid amt).bets q := by
  have key := betsGet_betsAdd_le s.bets pid q amt h
  simp only [bet]
  split
  · split <;> simpa using key
  · simpa using key

lemma applyAction_betsGet_le (s : HandState) (pid q : String) (amt : Int)
    (h : 0 ≤ amt) :
    betsGet s.bets q ≤
      betsGet (applyAction s pid (PlayerAction.bet amt)).bets q := by
  simp only [applyAction]
  split
  · exact bet_betsGet_le s pid q amt h
  · exact le_refl _

/-- C9 (amended): within a street (no trigger fires), an accepted
`act` bet with a NON-NEGATIVE amount never decreases any player's
ledger entry; the restriction is necessary because negative amounts
pass validation whenever the call gap is negative and then decrease
the ledger (see the counterexample). -/
theorem c9_amended (s : HandState) (pid : String) (amt : Int) (i : Int)
    (seat : Seat) (s2 s' : HandState) (q : String)
    (hn : nextSeat s = some (i, seat)) (hp : seat.playerId = pid)
    (hamt : 0 ≤ amt)
    (hs2 : s2 = applyAction { s with seatIndex := i } pid (PlayerAction.bet amt))
    (hA : s2.allInSet.card + 1 ≠ s2.seats.length)
    (hC : ¬ (s2.seats.length ≤ unionCard s2 ∧ isBetsEqualO s2 = some true))
    (hact : act s pid (PlayerAction.bet amt) = ActResult.ok s') :
    betsGet s.bets q ≤ betsGet s'.bets q := by
  rw [act_eq_found s pid (PlayerAction.bet amt) i seat hn, if_pos hp,
    ← hs2] at hact
  have hAll : allInStage s2 = s2 := by
    unfold allInStage; exact if_neg hA
  rw [hAll] at hact
  unfold closureStep at hact
  have hs' : s' = s2 := by
    by_cases hu : s2.seats.length ≤ unionCard s2
    · rw [if_pos hu] at hact
      cases hbe : isBetsEqualO s2 with
      | none => rw [hbe] at hact; cases hact
      | some b =>
        rw [hbe] at hact
        cases b with
        | false => injection hact with hh; exact hh.symm
        | true => exact absurd ⟨hu, hbe⟩ hC
    · rw [if_neg hu] at hact
      injection hact with hh; exact hh.symm
  rw [hs', hs2]
  exact applyAction_betsGet_le { s with seatIndex := i } pid q amt hamt

/-- C9 witness: a's accepted call of 20 keeps c's entry intact. -/
theorem c9_amended_witness :
    betsGet three0.bets "c" ≤
      betsGet (actState three0 "a" (PlayerAction.bet 20)).bets "c" :=
  c9_amended three0 "a" 20 0 ⟨"a", 1000⟩
    (applyAction { three0 with seatIndex := 0 } "a" (PlayerAction.bet 20))
    (actState three0 "a" (PlayerAction.bet 20)) "c"
    (by decide) rfl (by decide) rfl (by decide) (by decide) (by decide)

end Hand

namespace Hand

lemma updStack_sum (seats : List Seat) (pid : String) (amt : Int) :
    ((updStack seats pid amt).map Seat.stack).sum =
      (seats.map Seat.stack).sum -
        (if (seats.find? (fun t => t.playerId == pid)).isSome then amt else 0) := by
  induction seats with
  | nil => simp [updStack]
  | cons t tl ih =>
    by_cases ht : (t.playerId == pid) = true
    · simp [updStack, List.find?, ht]
      ring
    · simp [updStack, List.find?, ht, ih]
      split <;> ring

lemma chipSum_bet (s : HandState) (pid : String) (amt : Int) :
    chipSum (bet s pid amt) = chipSum s := by
  simp only [bet, chipSum]
  cases hg : getSeatByPlayerId s pid with
  | none => simp
  | some seat =>
    have hsome : (s.seats.find? (fun t => t.playerId == pid)).isSome = true := by
      unfold getSeatByPlayerId at hg
      rw [hg]; rfl
    simp only []
    split <;> (simp [updStack_sum, hsome]; try ring)

lemma chipSum_resetSeatIndex (s : HandState) :
    chipSum (resetSeatIndex s) = chipSum s := rfl

lemma chipSum_resetBets (s : HandState) :
    chipSum (resetBets s) = chipSum s := rfl

lemma chipSum_flop (s : HandState) : chipSum (flop s) = chipSum s := rfl

lemma chipSum_turn (s : HandState) : chipSum (turn s) = chipSum s := rfl

lemma chipSum_river (s : HandState) : chipSum (river s) = chipSum s := rfl

lemma chipSum_withSeatIndex (t : HandState) (i : Int) :
    chipSum { t with seatIndex := i } = chipSum t := rfl

lemma chipSum_withStartFields (t : HandState) (b : Finset String) (j m : Int) :
    chipSum { t with betSet := b, startWith := j, minRaise := m } = chipSum t := rfl

lemma chipSum_withDeckFields (t : HandState) (d : List String)
    (hc : List (String × List String)) (dp : Nat) :
    chipSum { t with deck := d, holeCards := hc, deckPointer := dp } = chipSum t := rfl

lemma chipSum_cascade (s : HandState) : chipSum (cascade s) = chipSum s := by
  simp only [cascade, showdown, ite_self]
  split <;> split <;> split <;>
    simp [chipSum_flop, chipSum_turn, chipSum_river]

lemma chipSum_allInStage (s : HandState) :
    chipSum (allInStage s) = chipSum s := by
  unfold allInStage
  split
  · exact chipSum_cascade s
  · rfl

lemma chipSum_advanceOne (s : HandState) :
    chipSum (advanceOne s) = chipSum s := by
  unfold advanceOne showdown
  split
  · exact chipSum_flop s
  · split
    · exact chipSum_turn s
    · split
      · exact chipSum_river s
      · split <;> rfl

lemma chipSum_applyAction (s : HandState) (pid : String) (a : PlayerAction) :
    chipSum (applyAction s pid a) = chipSum s := by
  cases a with
  | fold => rfl
  | bet amt =>
    simp only [applyAction]
    split
    · exact chipSum_bet s pid amt
    · rfl

lemma start_eq_noSB (deck : List String) (s sA : HandState)
    (hA : resetSeatIndex
      { s with deck := deck, holeCards := dealCards deck s.seats,
               deckPointer := s.seats.length * 2 } = sA)
    (h1 : nextSeat sA = none) :
    start deck s = none := by
  subst hA
  simp only [start]
  rw [h1]

lemma start_eq_noBB (deck : List String) (s sA : HandState) (i1 : Int)
    (seat1 : Seat) (sB : HandState)
    (hA : resetSeatIndex
      { s with deck := deck, holeCards := dealCards deck s.seats,
               deckPointer := s.seats.length * 2 } = sA)
    (h1 : nextSeat sA = some (i1, seat1))
    (hB : bet { sA with seatIndex := i1 } seat1.playerId
      sA.gameConfig.smallBlind = sB)
    (h2 : nextSeat sB = none) :
    start deck s = none := by
  subst hA
  subst hB
  simp only [start]
  rw [h1]
  simp only []
  rw [h2]

lemma start_eq_found (deck : List String) (s sA : HandState) (i1 : Int)
    (seat1 : Seat) (sB : HandState) (i2 : Int) (seat2 : Seat)
    (sC : HandState)
    (hA : resetSeatIndex
      { s with deck := deck, holeCards := dealCards deck s.seats,
               deckPointer := s.seats.length * 2 } = sA)
    (h1 : nextSeat sA = some (i1, seat1))
    (hB : bet { sA with seatIndex := i1 } seat1.playerId
      sA.gameConfig.smallBlind = sB)
    (h2 : nextSeat sB = some (i2, seat2))
    (hC : bet { sB with seatIndex := i2 } seat2.playerId
      sB.gameConfig.bigBlind = sC) :
    start deck s = some
      { sC with betSet := ∅, startWith := i2,
                minRaise := sC.gameConfig.bigBlind } := by
  subst hA
  subst hB
  subst hC
  simp only [start]
  rw [h1]
  simp only []
  rw [h2]

/-- C2: no chips are created or destroyed: the sum of all seat stacks
plus the single pot amount is invariant under `start()` and under
every `act()` call that returns normally (every chip deducted from a
stack lands in the pot and vice versa), so the pot always carries
exactly the chips contributed by the players. -/
theorem c2_chip_conservation :
    (∀ (deck : List String) (s s' : HandState),
      start deck s = some s' → chipSum s' = chipSum s) ∧
    (∀ (s : HandState) (pid : String) (a : PlayerAction) (s' : HandState),
      act s pid a = ActResult.ok s' → chipSum s' = chipSum s) := by
  constructor
  · intro deck s s' h
    set sA := resetSeatIndex
      { s with deck := deck, holeCards := dealCards deck s.seats,
               deckPointer := s.seats.length * 2 } with hsA
    rcases hs1 : nextSeat sA with _ | ⟨i1, seat1⟩
    · rw [start_eq_noSB deck s sA hsA.symm hs1] at h; cases h
    · set sB := bet { sA with seatIndex := i1 } seat1.playerId
        sA.gameConfig.smallBlind with hsB
      rcases hs2 : nextSeat sB with _ | ⟨i2, seat2⟩
      · rw [start_eq_noBB deck s sA i1 seat1 sB hsA.symm hs1 hsB.symm hs2] at h
        cases h
      · set sC := bet { sB with seatIndex := i2 } seat2.playerId
          sB.gameConfig.bigBlind with hsC
        rw [start_eq_found deck s sA i1 seat1 sB i2 seat2 sC hsA.symm hs1
          hsB.symm hs2 hsC.symm] at h
        injection h with h
        rw [← h, chipSum_withStartFields, hsC, chipSum_bet,
          chipSum_withSeatIndex, hsB, chipSum_bet, chipSum_withSeatIndex,
          hsA, chipSum_resetSeatIndex, chipSum_withDeckFields]
  · intro s pid a s' h
    cases hn : nextSeat s with
    | none => unfold act at h; rw [hn] at h; cases h
    | some r =>
      obtain ⟨i, seat⟩ := r
      rw [act_eq_found s pid a i seat hn] at h
      by_cases hp : seat.playerId = pid
      · rw [if_pos hp] at h
        unfold closureStep at h
        have base : chipSum (allInStage (applyAction { s with seatIndex := i } pid a)) = chipSum s := by
          rw [chipSum_allInStage, chipSum_applyAction]
          rfl
        split at h
        · cases hbe : isBetsEqualO (allInStage (applyAction { s with seatIndex := i } pid a)) with
          | none => rw [hbe] at h; cases h
          | some b =>
            rw [hbe] at h
            cases b with
            | false => injection h with h; rw [← h]; exact base
            | true =>
              injection h with h
              rw [← h, chipSum_advanceOne]
              exact base
        · injection h with h; rw [← h]; exact base
      · rw [if_neg hp] at h; cases h

/-- C2 witness: conservation instantiated on the 3-player hand. -/
theorem c2_chip_conservation_witness :
    chipSum three0 =
        chipSum (mkHand [⟨"a", 1000⟩, ⟨"b", 1000⟩, ⟨"c", 1000⟩] cfg0) ∧
    chipSum (actState three0 "a" (PlayerAction.bet 40)) = chipSum three0 :=
  ⟨c2_chip_conservation.1 deck3 _ three0 (by decide),
   c2_chip_conservation.2 three0 "a" (PlayerAction.bet 40) _ (by decide)⟩

end Hand

namespace Hand

lemma nextSeat_flop_hu (s : HandState) (st0 : Seat)
    (hlen : s.seats.length = 2) (h0 : s.seats[0]? = some st0)
    (hf : st0.playerId ∉ s.foldSet) (ha : st0.playerId ∉ s.allInSet) :
    nextSeat (flop s) = some (0, st0) := by
  have hseats : (flop s).seats = s.seats := rfl
  have hfold : (flop s).foldSet = s.foldSet := rfl
  have hallin : (flop s).allInSet = s.allInSet := rfl
  have hsi : (flop s).seatIndex = -1 := by
    simp [flop, resetBets, resetSeatIndex, hlen]
  unfold nextSeat
  rw [hsi, hseats, hlen]
  unfold nextSeatAux
  have hj : jsRem (-1 + 1) ((flop s).seats.length : Int) = 0 := by
    rw [hseats, hlen]; decide
  rw [hj]
  simp only []
  have hsa : seatAt (flop s) 0 = some st0 := by
    unfold seatAt
    rw [if_pos (by norm_num)]
    rw [hseats]
    exact h0
  rw [hsa]
  simp [hfold, hallin, hf, ha]

lemma nextSeat_turn_hu (s : HandState) (st0 : Seat)
    (hlen : s.seats.length = 2) (h0 : s.seats[0]? = some st0)
    (hf : st0.playerId ∉ s.foldSet) (ha : st0.playerId ∉ s.allInSet) :
    nextSeat (turn s) = some (0, st0) := by
  have hseats : (turn s).seats = s.seats := rfl
  have hfold : (turn s).foldSet = s.foldSet := rfl
  have hallin : (turn s).allInSet = s.allInSet := rfl
  have hsi : (turn s).seatIndex = -1 := by
    simp [turn, resetBets, resetSeatIndex, hlen]
  unfold nextSeat
  rw [hsi, hseats, hlen]
  unfold nextSeatAux
  have hj : jsRem (-1 + 1) ((turn s).seats.length : Int) = 0 := by
    rw [hseats, hlen]; decide
  rw [hj]
  simp only []
  have hsa : seatAt (turn s) 0 = some st0 := by
    unfold seatAt
    rw [if_pos (by norm_num)]
    rw [hseats]
    exact h0
  rw [hsa]
  simp [hfold, hallin, hf, ha]

lemma nextSeat_river_hu (s : HandState) (st0 : Seat)
    (hlen : s.seats.length = 2) (h0 : s.seats[0]? = some st0)
    (hf : st0.playerId ∉ s.foldSet) (ha : st0.playerId ∉ s.allInSet) :
    nextSeat (river s) = some (0, st0) := by
  have hseats : (river s).seats = s.seats := rfl
  have hfold : (river s).foldSet = s.foldSet := rfl
  have hallin : (river s).allInSet = s.allInSet := rfl
  have hsi : (river s).seatIndex = -1 := by
    simp [river, resetBets, resetSeatIndex, hlen]
  unfold nextSeat
  rw [hsi, hseats, hlen]
  unfold nextSeatAux
  have hj : jsRem (-1 + 1) ((river s).seats.length : Int) = 0 := by
    rw [hseats, hlen]; decide
  rw [hj]
  simp only []
  have hsa : seatAt (river s) 0 = some st0 := by
    unfold seatAt
    rw [if_pos (by norm_num)]
    rw [hseats]
    exact h0
  rw [hsa]
  simp [hfold, hallin, hf, ha]

/-- C3 (amended): heads-up, the dealer (seat 0) posts the small blind
and is the first designated actor preflop; but on every post-flop
street the cursor resets to -1 (the seat before the dealer) and the
pre-incrementing `_nextSeat` therefore designates the DEALER — not the
non-dealer — as the first actor of every post-flop street. -/
theorem c3_amended :
    (∀ (p q : Seat) (cfg : GameConfig) (deck : List String),
      p.playerId ≠ q.playerId → p.stack ≠ cfg.smallBlind →
      ∃ s', start deck (mkHand [p, q] cfg) = some s' ∧
        betsGet s'.bets p.playerId = cfg.smallBlind ∧
        betsGet s'.bets q.playerId = cfg.bigBlind ∧
        (nextSeat s').map (fun r => r.2.playerId) = some p.playerId) ∧
    (∀ (s : HandState) (st0 : Seat),
      s.seats.length = 2 → s.seats[0]? = some st0 →
      st0.playerId ∉ s.foldSet → st0.playerId ∉ s.allInSet →
      nextSeat (flop s) = some (0, st0) ∧
      nextSeat (turn s) = some (0, st0) ∧
      nextSeat (river s) = some (0, st0)) := by
  constructor
  · intro p q cfg deck hpq hps
    have hbq : (p.playerId == q.playerId) = false := beq_eq_false_iff_ne.mpr hpq
    have hbq' : (q.playerId == p.playerId) = false :=
      beq_eq_false_iff_ne.mpr (Ne.symm hpq)
    have hps' : ¬ (p.stack - cfg.smallBlind = 0) := by
      intro h
      exact hps (by linarith [sub_eq_zero.mp h])
    have h1 : nextSeat (resetSeatIndex
        { mkHand [p, q] cfg with
          deck := deck,
          holeCards := dealCards deck (mkHand [p, q] cfg).seats,
          deckPointer := (mkHand [p, q] cfg).seats.length * 2 }) = some (0, p) := by
      simp [mkHand, resetSeatIndex, nextSeat, nextSeatAux, seatAt, jsRem]
    have hS1 : bet { (resetSeatIndex
        { mkHand [p, q] cfg with
          deck := deck,
          holeCards := dealCards deck (mkHand [p, q] cfg).seats,
          deckPointer := (mkHand [p, q] cfg).seats.length * 2 }) with
        seatIndex := 0 } p.playerId cfg.smallBlind = huSB p q cfg deck := by
      simp [mkHand, resetSeatIndex, bet, getSeatByPlayerId, huSB,
        List.find?_cons_of_pos, List.find?_cons_of_neg, List.find?_nil,
        updStack, betsGet, betsAdd, hps', beq_self_eq_true]
    have h2 : nextSeat (huSB p q cfg deck) = some (1, q) := by
      simp [huSB, nextSeat, nextSeatAux, seatAt, jsRem]
    by_cases hq : q.stack - cfg.bigBlind = 0
    · have hS2 : bet { (huSB p q cfg deck) with seatIndex := 1 }
          q.playerId cfg.bigBlind =
          huBB p q cfg deck {p.playerId} {q.playerId} := by
        simp [bet, getSeatByPlayerId, huSB, huBB,
          List.find?_cons_of_pos, List.find?_cons_of_neg, List.find?_nil,
          updStack, betsGet, betsAdd, hq, hbq, hbq', beq_self_eq_true]
      have hstart := start_eq_found deck (mkHand [p, q] cfg) _ 0 p _ 1 q _
        rfl h1 hS1 h2 hS2
      refine ⟨_, hstart, ?_, ?_, ?_⟩
      · simp [huBB, betsGet, List.find?_cons_of_pos, List.find?_cons_of_neg,
          List.find?_nil, beq_self_eq_true, hbq, hbq']
      · simp [huBB, betsGet, List.find?_cons_of_pos, List.find?_cons_of_neg,
          List.find?_nil, beq_self_eq_true, hbq, hbq']
      · simp [huBB, nextSeat, nextSeatAux, seatAt, jsRem, hpq, Ne.symm hpq]
    · have hS2 : bet { (huSB p q cfg deck) with seatIndex := 1 }
          q.playerId cfg.bigBlind =
          huBB p q cfg deck (insert q.playerId {p.playerId}) ∅ := by
        simp [bet, getSeatByPlayerId, huSB, huBB,
          List.find?_cons_of_pos, List.find?_cons_of_neg, List.find?_nil,
          updStack, betsGet, betsAdd, hq, hbq, hbq', beq_self_eq_true]
      have hstart := start_eq_found deck (mkHand [p, q] cfg) _ 0 p _ 1 q _
        rfl h1 hS1 h2 hS2
      refine ⟨_, hstart, ?_, ?_, ?_⟩
      · simp [huBB, betsGet, List.find?_cons_of_pos, List.find?_cons_of_neg,
          List.find?_nil, beq_self_eq_true, hbq, hbq']
      · simp [huBB, betsGet, List.find?_cons_of_pos, List.find?_cons_of_neg,
          List.find?_nil, beq_self_eq_true, hbq, hbq']
      · simp [huBB, nextSeat, nextSeatAux, seatAt, jsRem, hpq, Ne.symm hpq]
  · intro s st0 hlen h0 hf ha
    exact ⟨nextSeat_flop_hu s st0 hlen h0 hf ha,
      nextSeat_turn_hu s st0 hlen h0 hf ha,
      nextSeat_river_hu s st0 hlen h0 hf ha⟩

/-- C3 witness: the amended heads-up ordering at stacks 1000/1000 and
at the concrete post-call state `c3S1`. -/
theorem c3_amended_witness :
    (∃ s', start deck2 (mkHand [⟨"a", 1000⟩, ⟨"b", 1000⟩] cfg0) = some s' ∧
      betsGet s'.bets "a" = 10 ∧ betsGet s'.bets "b" = 20 ∧
      (nextSeat s').map (fun r => r.2.playerId) = some "a") ∧
    (nextSeat (flop c3S1) = some (0, ⟨"a", 980⟩) ∧
     nextSeat (turn c3S1) = some (0, ⟨"a", 980⟩) ∧
     nextSeat (river c3S1) = some (0, ⟨"a", 980⟩)) :=
  ⟨c3_amended.1 ⟨"a", 1000⟩ ⟨"b", 1000⟩ cfg0 deck2 (by decide) (by decide),
   c3_amended.2 c3S1 ⟨"a", 980⟩ (by decide) (by decide) (by decide) (by decide)⟩

end Hand

namespace Hand

lemma unionCard_eq_unionSet (s : HandState) :
    unionCard s = (unionSet s).card := rfl

lemma seatAt_mem (s : HandState) (i : Int) (seat : Seat)
    (h : seatAt s i = some seat) : seat ∈ s.seats := by
  unfold seatAt at h
  split at h
  · exact List.getElem?_mem h
  · cases h

lemma nextSeatAux_mem (s : HandState) (idx : Int) (fuel : Nat) (j : Int)
    (seat : Seat) (h : nextSeatAux s idx fuel = some (j, seat)) :
    seat ∈ s.seats := by
  induction fuel generalizing idx with
  | zero => cases h
  | succ n ih =>
    simp only [nextSeatAux] at h
    cases hsa : seatAt s (jsRem (idx + 1) s.seats.length) with
    | none => simp only [hsa] at h; cases h
    | some st =>
      simp only [hsa] at h
      split at h
      · exact ih _ h
      · injection h with h
        have hst : st = seat := congrArg Prod.snd h
        exact hst ▸ seatAt_mem s _ st hsa

lemma nextSeat_mem (s : HandState) (i : Int) (seat : Seat)
    (h : nextSeat s = some (i, seat)) : seat ∈ s.seats :=
  nextSeatAux_mem s s.seatIndex (s.seats.length + 1) i seat h

lemma updStack_pids (seats : List Seat) (pid : String) (amt : Int) :
    (updStack seats pid amt).map Seat.playerId = seats.map Seat.playerId := by
  induction seats with
  | nil => rfl
  | cons t tl ih =>
    by_cases ht : (t.playerId == pid) = true <;> simp [updStack, ht, ih]

lemma bet_pids (s : HandState) (pid : String) (amt : Int) :
    pids (bet s pid amt) = pids s := by
  simp only [bet, pids]
  split
  · split <;> simp [updStack_pids]
  · rfl

lemma bet_foldSet (s : HandState) (pid : String) (amt : Int) :
    (bet s pid amt).foldSet = s.foldSet := by
  simp only [bet]
  split
  · split <;> rfl
  · rfl

lemma bet_betSet_sub (s : HandState) (pid : String) (amt : Int) :
    (bet s pid amt).betSet ⊆ insert pid s.betSet := by
  simp only [bet]
  split
  · split
    · exact Finset.subset_insert _ _
    · exact Finset.Subset.refl _ |>.trans (by exact Finset.insert_subset_insert _ (Finset.Subset.refl _))
  · exact Finset.subset_insert _ _

lemma bet_allInSet_sub (s : HandState) (pid : String) (amt : Int) :
    (bet s pid amt).allInSet ⊆ insert pid s.allInSet := by
  simp only [bet]
  split
  · split
    · exact Finset.Subset.refl _
    · exact Finset.subset_insert _ _
  · exact Finset.subset_insert _ _

end Hand

namespace Hand

lemma flop_sets (s : HandState) :
    (flop s).betSet = ∅ ∧ (flop s).foldSet = s.foldSet ∧
    (flop s).allInSet = s.allInSet ∧ (flop s).seats = s.seats :=
  ⟨rfl, rfl, rfl, rfl⟩

lemma turn_sets (s : HandState) :
    (turn s).betSet = ∅ ∧ (turn s).foldSet = s.foldSet ∧
    (turn s).allInSet = s.allInSet ∧ (turn s).seats = s.seats :=
  ⟨rfl, rfl, rfl, rfl⟩

lemma river_sets (s : HandState) :
    (river s).betSet = ∅ ∧ (river s).foldSet = s.foldSet ∧
    (river s).allInSet = s.allInSet ∧ (river s).seats = s.seats :=
  ⟨rfl, rfl, rfl, rfl⟩

lemma cascade_sets (s : HandState) :
    (cascade s).betSet ⊆ s.betSet ∧ (cascade s).foldSet = s.foldSet ∧
    (cascade s).allInSet = s.allInSet ∧ (cascade s).seats = s.seats := by
  simp only [cascade, showdown]
  split <;> split <;> split <;>
    refine ⟨?_, ?_, ?_, ?_⟩ <;>
      simp [flop_sets, turn_sets, river_sets, Finset.empty_subset]

lemma advanceOne_sets (s : HandState) :
    (advanceOne s).betSet ⊆ s.betSet ∧ (advanceOne s).foldSet = s.foldSet ∧
    (advanceOne s).allInSet = s.allInSet ∧ (advanceOne s).seats = s.seats := by
  simp only [advanceOne, showdown]
  split
  · exact ⟨Finset.empty_subset _, rfl, rfl, rfl⟩
  · split
    · exact ⟨Finset.empty_subset _, rfl, rfl, rfl⟩
    · split
      · exact ⟨Finset.empty_subset _, rfl, rfl, rfl⟩
      · split <;> exact ⟨Finset.Subset.refl _, rfl, rfl, rfl⟩

lemma allInStage_sets (s : HandState) :
    (allInStage s).betSet ⊆ s.betSet ∧ (allInStage s).foldSet = s.foldSet ∧
    (allInStage s).allInSet = s.allInSet ∧ (allInStage s).seats = s.seats := by
  unfold allInStage
  split
  · exact cascade_sets s
  · exact ⟨Finset.Subset.refl _, rfl, rfl, rfl⟩

lemma applyAction_sets (s : HandState) (pid : String) (a : PlayerAction) :
    (applyAction s pid a).betSet ⊆ insert pid s.betSet ∧
    (applyAction s pid a).foldSet ⊆ insert pid s.foldSet ∧
    (applyAction s pid a).allInSet ⊆ insert pid s.allInSet ∧
    pids (applyAction s pid a) = pids s := by
  cases a with
  | fold =>
    refine ⟨Finset.subset_insert _ _, ?_, Finset.subset_insert _ _, rfl⟩
    simp [applyAction]
  | bet amt =>
    simp only [applyAction]
    split
    · exact ⟨bet_betSet_sub s pid amt,
        (bet_foldSet s pid amt) ▸ Finset.subset_insert _ _,
        bet_allInSet_sub s pid amt, bet_pids s pid amt⟩
    · exact ⟨Finset.subset_insert _ _, Finset.subset_insert _ _,
        Finset.subset_insert _ _, rfl⟩

lemma closureStep_cases (t : HandState) :
    closureStep t = ActResult.stuck ∨ closureStep t = ActResult.ok t ∨
    closureStep t = ActResult.ok (advanceOne t) := by
  unfold closureStep
  split
  · cases isBetsEqualO t with
    | none => exact Or.inl rfl
    | some b => cases b with
      | false => exact Or.inr (Or.inl rfl)
      | true => exact Or.inr (Or.inr rfl)
  · exact Or.inr (Or.inl rfl)

lemma actState_betSet_sub (s : HandState) (pid : String) (a : PlayerAction) :
    (actState s pid a).betSet ⊆ insert pid s.betSet := by
  unfold actState
  cases hn : nextSeat s with
  | none =>
    have hstk : act s pid a = ActResult.stuck := by unfold act; rw [hn]
    rw [hstk]
    exact Finset.subset_insert _ _
  | some r =>
    obtain ⟨i, seat⟩ := r
    rw [act_eq_found s pid a i seat hn]
    by_cases hp : seat.playerId = pid
    · rw [if_pos hp]
      have happ := (applyAction_sets { s with seatIndex := i } pid a).1
      have hall := (allInStage_sets (applyAction { s with seatIndex := i } pid a)).1
      rcases closureStep_cases
          (allInStage (applyAction { s with seatIndex := i } pid a)) with
        h | h | h <;> rw [h]
      · exact Finset.subset_insert _ _
      · exact hall.trans happ
      · exact ((advanceOne_sets _).1.trans hall).trans happ
    · rw [if_neg hp]
      exact Finset.subset_insert _ _

lemma actState_foldSet_sub (s : HandState) (pid : String) (a : PlayerAction) :
    (actState s pid a).foldSet ⊆ insert pid s.foldSet := by
  unfold actState
  cases hn : nextSeat s with
  | none =>
    have hstk : act s pid a = ActResult.stuck := by unfold act; rw [hn]
    rw [hstk]
    exact Finset.subset_insert _ _
  | some r =>
    obtain ⟨i, seat⟩ := r
    rw [act_eq_found s pid a i seat hn]
    by_cases hp : seat.playerId = pid
    · rw [if_pos hp]
      have happ := (applyAction_sets { s with seatIndex := i } pid a).2.1
      have hall := (allInStage_sets (applyAction { s with seatIndex := i } pid a)).2.1
      rcases closureStep_cases
          (allInStage (applyAction { s with seatIndex := i } pid a)) with
        h | h | h <;> rw [h]
      · exact Finset.subset_insert _ _
      · exact hall ▸ happ
      · exact ((advanceOne_sets _).2.1.trans hall) ▸ happ
    · rw [if_neg hp]
      exact Finset.subset_insert _ _

lemma actState_allInSet_sub (s : HandState) (pid : String) (a : PlayerAction) :
    (actState s pid a).allInSet ⊆ insert pid s.allInSet := by
  unfold actState
  cases hn : nextSeat s with
  | none =>
    have hstk : act s pid a = ActResult.stuck := by unfold act; rw [hn]
    rw [hstk]
    exact Finset.subset_insert _ _
  | some r =>
    obtain ⟨i, seat⟩ := r
    rw [act_eq_found s pid a i seat hn]
    by_cases hp : seat.playerId = pid
    · rw [if_pos hp]
      have happ := (applyAction_sets { s with seatIndex := i } pid a).2.2.1
      have hall := (allInStage_sets (applyAction { s with seatIndex := i } pid a)).2.2.1
      rcases closureStep_cases
          (allInStage (applyAction { s with seatIndex := i } pid a)) with
        h | h | h <;> rw [h]
      · exact Finset.subset_insert _ _
      · exact hall ▸ happ
      · exact ((advanceOne_sets _).2.2.1.trans hall) ▸ happ
    · rw [if_neg hp]
      exact Finset.subset_insert _ _

lemma actState_pids (s : HandState) (pid : String) (a : PlayerAction) :
    pids (actState s pid a) = pids s := by
  unfold actState
  cases hn : nextSeat s with
  | none =>
    have hstk : act s pid a = ActResult.stuck := by unfold act; rw [hn]
    rw [hstk]
  | some r =>
    obtain ⟨i, seat⟩ := r
    rw [act_eq_found s pid a i seat hn]
    by_cases hp : seat.playerId = pid
    · rw [if_pos hp]
      have happ := (applyAction_sets { s with seatIndex := i } pid a).2.2.2
      have hall := (allInStage_sets (applyAction { s with seatIndex := i } pid a)).2.2.2
      rcases closureStep_cases
          (allInStage (applyAction { s with seatIndex := i } pid a)) with
        h | h | h <;> rw [h]
      · show pids (allInStage (applyAction { s with seatIndex := i } pid a)) =
          pids s
        rw [pids, hall]
        exact happ
      · show pids (advanceOne (allInStage
          (applyAction { s with seatIndex := i } pid a))) = pids s
        rw [pids, (advanceOne_sets _).2.2.2, hall]
        exact happ
    · rw [if_neg hp]
      rfl

end Hand

namespace Hand

lemma runActs_pids (s : HandState) (L : List (String × PlayerAction)) :
    pids (runActs s L) = pids s := by
  induction L generalizing s with
  | nil => rfl
  | cons e rest ih =>
    obtain ⟨pid, a⟩ := e
    simp only [runActs]
    rw [ih, actState_pids]

lemma runActs_betSet_sub (s : HandState) (L : List (String × PlayerAction)) :
    (runActs s L).betSet ⊆ s.betSet ∪ (L.map Prod.fst).toFinset := by
  induction L generalizing s with
  | nil => simp [runActs]
  | cons e rest ih =>
    obtain ⟨pid, a⟩ := e
    simp only [runActs]
    refine (ih (actState s pid a)).trans ?_
    intro x hx
    rcases Finset.mem_union.mp hx with hx | hx
    · rcases Finset.mem_insert.mp (actState_betSet_sub s pid a hx) with h | h
      · subst h
        simp
      · exact Finset.mem_union_left _ h
    · simp only [List.map_cons, List.toFinset_cons]
      exact Finset.mem_union_right _ (Finset.mem_insert_of_mem hx)

lemma unionSet_sub_helper (u : HandState) (pid : String) (s : HandState)
    (hf : u.foldSet ⊆ insert pid s.foldSet)
    (hb : u.betSet ⊆ insert pid s.betSet)
    (ha : u.allInSet ⊆ insert pid s.allInSet) :
    unionSet u ⊆ insert pid (unionSet s) := by
  refine (Finset.union_subset_union
    (Finset.union_subset_union hf hb) ha).trans ?_
  intro x hx
  simp only [Finset.mem_union, Finset.mem_insert, unionSet] at hx ⊢
  tauto

lemma mem_pidsF_of_seat (s : HandState) (seat : Seat) (hm : seat ∈ s.seats) :
    seat.playerId ∈ (pids s).toFinset :=
  List.mem_toFinset.mpr (List.mem_map_of_mem Seat.playerId hm)

lemma actState_union_sub_pids (s : HandState) (pid : String)
    (a : PlayerAction) (h : unionSet s ⊆ (pids s).toFinset) :
    unionSet (actState s pid a) ⊆ (pids s).toFinset := by
  unfold actState
  cases hn : nextSeat s with
  | none =>
    have hstk : act s pid a = ActResult.stuck := by unfold act; rw [hn]
    rw [hstk]
    exact h
  | some r =>
    obtain ⟨i, seat⟩ := r
    rw [act_eq_found s pid a i seat hn]
    by_cases hp : seat.playerId = pid
    · rw [if_pos hp]
      have hpm : pid ∈ (pids s).toFinset :=
        hp ▸ mem_pidsF_of_seat s seat (nextSeat_mem s i seat hn)
      have happ := applyAction_sets { s with seatIndex := i } pid a
      have hall := allInStage_sets (applyAction { s with seatIndex := i } pid a)
      rcases closureStep_cases
          (allInStage (applyAction { s with seatIndex := i } pid a)) with
        h' | h' | h' <;> rw [h']
      · exact h
      · refine (unionSet_sub_helper _ pid s
          (hall.2.1 ▸ happ.2.1) (hall.1.trans happ.1)
          (hall.2.2.1 ▸ happ.2.2.1)).trans ?_
        exact Finset.insert_subset hpm h
      · have hadv := advanceOne_sets
          (allInStage (applyAction { s with seatIndex := i } pid a))
        refine (unionSet_sub_helper _ pid s
          ((hadv.2.1.trans hall.2.1) ▸ happ.2.1)
          (hadv.1.trans (hall.1.trans happ.1))
          ((hadv.2.2.1.trans hall.2.2.1) ▸ happ.2.2.1)).trans ?_
        exact Finset.insert_subset hpm h
    · rw [if_neg hp]
      exact h

lemma runActs_union_sub (s : HandState) (L : List (String × PlayerAction))
    (h : unionSet s ⊆ (pids s).toFinset) :
    unionSet (runActs s L) ⊆ (pids s).toFinset := by
  induction L generalizing s with
  | nil => exact h
  | cons e rest ih =>
    obtain ⟨pid, a⟩ := e
    simp only [runActs]
    have hstep := actState_union_sub_pids s pid a h
    have := ih (actState s pid a) (by rw [actState_pids]; exact hstep)
    rw [actState_pids] at this
    exact this

end Hand

namespace Hand

lemma start_shape (deck : List String) (s s' : HandState)
    (h : start deck s = some s') :
    s'.betSet = ∅ ∧ s'.foldSet = s.foldSet ∧ pids s' = pids s ∧
    ∃ p1 p2, p1 ∈ (pids s).toFinset ∧ p2 ∈ (pids s).toFinset ∧
      s'.allInSet ⊆ insert p2 (insert p1 s.allInSet) := by
  set sA := resetSeatIndex
    { s with deck := deck, holeCards := dealCards deck s.seats,
             deckPointer := s.seats.length * 2 } with hsA
  rcases hs1 : nextSeat sA with _ | ⟨i1, seat1⟩
  · rw [start_eq_noSB deck s sA hsA.symm hs1] at h; cases h
  · set sB := bet { sA with seatIndex := i1 } seat1.playerId
      sA.gameConfig.smallBlind with hsB
    rcases hs2 : nextSeat sB with _ | ⟨i2, seat2⟩
    · rw [start_eq_noBB deck s sA i1 seat1 sB hsA.symm hs1 hsB.symm hs2] at h
      cases h
    · set sC := bet { sB with seatIndex := i2 } seat2.playerId
        sB.gameConfig.bigBlind with hsC
      rw [start_eq_found deck s sA i1 seat1 sB i2 seat2 sC hsA.symm hs1
        hsB.symm hs2 hsC.symm] at h
      injection h with h
      subst h
      have hpidsA : pids sA = pids s := by rw [hsA]; rfl
      have hpidsB : pids sB = pids s := by
    
        rw [hsB, bet_pids]
        exact hpidsA
      have hpidsC : pids sC = pids s := by
        rw [hsC, bet_pids]
        exact hpidsB
      have hfoldB : sB.foldSet = s.foldSet := by rw [hsB, bet_foldSet]; rfl
      have hfoldC : sC.foldSet = s.foldSet := by
        rw [hsC, bet_foldSet]
        exact hfoldB
      have hm1 : seat1.playerId ∈ (pids s).toFinset := by
        have := mem_pidsF_of_seat sA seat1 (nextSeat_mem sA i1 seat1 hs1)
        rwa [hpidsA] at this
      have hm2 : seat2.playerId ∈ (pids s).toFinset := by
        have := mem_pidsF_of_seat sB seat2 (nextSeat_mem sB i2 seat2 hs2)
        rwa [hpidsB] at this
      refine ⟨rfl, hfoldC, hpidsC, seat1.playerId, seat2.playerId, hm1, hm2, ?_⟩
      have hallB : sB.allInSet ⊆ insert seat1.playerId s.allInSet := by
        rw [hsB]
        exact bet_allInSet_sub _ _ _
      have hallC : sC.allInSet ⊆
          insert seat2.playerId (insert seat1.playerId s.allInSet) := by
        rw [hsC]
        exact (bet_allInSet_sub _ _ _).trans
          (Finset.insert_subset_insert _ hallB)
      exact hallC

lemma start_mkHand_inv (seats : List Seat) (cfg : GameConfig)
    (deck : List String) (s0 : HandState)
    (h : start deck (mkHand seats cfg) = some s0) :
    s0.betSet = ∅ ∧ pids s0 = seats.map Seat.playerId ∧
    unionSet s0 ⊆ (seats.map Seat.playerId).toFinset := by
  obtain ⟨hb, hf, hp, p1, p2, hm1, hm2, hall⟩ := start_shape deck _ s0 h
  have hpids : pids (mkHand seats cfg) = seats.map Seat.playerId := rfl
  refine ⟨hb, by rw [hp, hpids], ?_⟩
  intro x hx
  simp only [unionSet, Finset.mem_union] at hx
  rcases hx with (hx | hx) | hx
  · rw [hf] at hx
    simp [mkHand] at hx
  · rw [hb] at hx
    simp at hx
  · have := hall hx
    simp only [mkHand, Finset.mem_insert] at this
    rcases this with h1 | h1 | h1
    · rw [← hpids, h1]
      exact hm2
    · rw [← hpids, h1]
      exact hm1
    · simp at h1

end Hand

namespace Hand

/-- C10: posting the blinds does not count as acting: `start()` clears
the acted set after posting both blinds, and the preflop closure union
can only cover the table once every player not folded and not all-in
at the trigger point has made an `act()` call of their own (is the
current actor or an earlier actor of the run) — in particular the big
blind keeps the option to act. -/
theorem c10_blinds_not_acting :
    (∀ (deck : List String) (s s' : HandState),
      start deck s = some s' → s'.betSet = ∅) ∧
    (∀ (seats : List Seat) (cfg : GameConfig) (deck : List String)
       (s0 : HandState) (L : List (String × PlayerAction)) (p : String)
       (a : PlayerAction) (t : HandState) (q : String),
      (seats.map Seat.playerId).Nodup →
      start deck (mkHand seats cfg) = some s0 →
      actApplied (runActs s0 L) p a = some t →
      t.seats.length ≤ unionCard t →
      q ∈ seats.map Seat.playerId →
      q ∉ t.foldSet → q ∉ t.allInSet →
      q = p ∨ q ∈ L.map Prod.fst) := by
  constructor
  · intro deck s s' h
    exact (start_shape deck s s' h).1
  · intro seats cfg deck s0 L p a t q hnodup hstart happ hunion hq hqf hqa
    obtain ⟨hb0, hpids0, hu0⟩ := start_mkHand_inv seats cfg deck s0 hstart
    cases hn : nextSeat (runActs s0 L) with
    | none =>
      unfold actApplied at happ
      rw [hn] at happ
      cases happ
    | some r =>
      obtain ⟨i, seat⟩ := r
      rw [actApplied_eq_found (runActs s0 L) p a i seat hn] at happ
      by_cases hp : seat.playerId = p
      · rw [if_pos hp] at happ
        injection happ with ht
        have hpidsR : pids (runActs s0 L) = seats.map Seat.playerId := by
          rw [runActs_pids]
          exact hpids0
        have huR : unionSet (runActs s0 L) ⊆
            (seats.map Seat.playerId).toFinset := by
          have := runActs_union_sub s0 L (by rw [hpids0]; exact hu0)
          rwa [hpids0] at this
        have hbR : (runActs s0 L).betSet ⊆ (L.map Prod.fst).toFinset := by
          have := runActs_betSet_sub s0 L
          rwa [hb0, Finset.empty_union] at this
        have hpm : p ∈ (seats.map Seat.playerId).toFinset := by
          have := mem_pidsF_of_seat (runActs s0 L) seat
            (nextSeat_mem (runActs s0 L) i seat hn)
          rw [hpidsR] at this
          exact hp ▸ this
        have happs := applyAction_sets
          { runActs s0 L with seatIndex := i } p a
        have halls := allInStage_sets
          (applyAction { runActs s0 L with seatIndex := i } p a)
        have htfold : t.foldSet ⊆ insert p (runActs s0 L).foldSet := by
          rw [← ht]
          exact halls.2.1 ▸ happs.2.1
        have htbet : t.betSet ⊆ insert p (runActs s0 L).betSet := by
          rw [← ht]
          exact halls.1.trans happs.1
        have htall : t.allInSet ⊆ insert p (runActs s0 L).allInSet := by
          rw [← ht]
          exact halls.2.2.1 ▸ happs.2.2.1
        have htpids : pids t = seats.map Seat.playerId := by
          rw [← ht]
          show pids (allInStage
            (applyAction { runActs s0 L with seatIndex := i } p a)) = _
          rw [pids, halls.2.2.2]
          have h2 := happs.2.2.2
          rw [pids, pids] at h2
          rw [h2]
          exact hpidsR
        have hut : unionSet t ⊆ (seats.map Seat.playerId).toFinset := by
          refine (unionSet_sub_helper t p (runActs s0 L)
            htfold htbet htall).trans ?_
          exact Finset.insert_subset hpm huR
        have hlen : t.seats.length = (seats.map Seat.playerId).length := by
          have : (pids t).length = t.seats.length := by
            rw [pids, List.length_map]
          rw [← this, htpids]
        have hcard : (seats.map Seat.playerId).toFinset.card ≤
            (unionSet t).card := by
          rw [List.toFinset_card_of_nodup hnodup, ← hlen]
          rw [unionCard_eq_unionSet] at hunion
          exact hunion
        have heq : unionSet t = (seats.map Seat.playerId).toFinset :=
          Finset.eq_of_subset_of_card_le hut hcard
        have hqu : q ∈ unionSet t := by
          rw [heq]
          exact List.mem_toFinset.mpr hq
        simp only [unionSet, Finset.mem_union] at hqu
        rcases hqu with (hx | hx) | hx
        · exact absurd hx hqf
        · rcases Finset.mem_insert.mp (htbet hx) with h1 | h1
          · exact Or.inl h1
          · exact Or.inr (List.mem_toFinset.mp (hbR h1))
        · exact absurd hx hqa
      · rw [if_neg hp] at happ
        cases happ

/-- C10 witness: in the 3-player hand, after a calls and b folds, c's
check closes preflop; the union condition holds at the trigger point
and the still-active player a is indeed among the actors so far. -/
theorem c10_blinds_not_acting_witness :
    three0.betSet = ∅ ∧
    ("a" = "c" ∨ "a" ∈ ([("a", PlayerAction.bet 20),
      ("b", PlayerAction.fold)].map Prod.fst)) :=
  ⟨c10_blinds_not_acting.1 deck3
      (mkHand [⟨"a", 1000⟩, ⟨"b", 1000⟩, ⟨"c", 1000⟩] cfg0) three0 (by decide),
   c10_blinds_not_acting.2 [⟨"a", 1000⟩, ⟨"b", 1000⟩, ⟨"c", 1000⟩] cfg0 deck3
      three0 [("a", .bet 20), ("b", .fold)] "c" (.bet 0) c10T "a"
      (by decide) (by decide) (by decide) (by decide) (by decide)
      (by decide) (by decide)⟩

end Hand

namespace Hand

/-- C4 (amended): with no player all-in and a positive stack S, a bet
of 0 < amount < S validates iff it equals the call gap or is at least
twice it; amount 0 validates iff the call gap is NON-POSITIVE (not
only zero) or no chips are in this street yet; amount > S is rejected
and amount = S (all-in) accepted. -/
theorem c4_amended (s : HandState) (pid : String) (seat : Seat)
    (hseat : getSeatByPlayerId s pid = some seat)
    (hstack : 0 < seat.stack)
    (hallin : s.allInSet = ∅) :
    (∀ amt : Int, 0 < amt → amt < seat.stack →
      (isValidBet s pid amt = true ↔
        (amt = s.minRaise - betsGet s.bets pid ∨
         2 * (s.minRaise - betsGet s.bets pid) ≤ amt))) ∧
    (isValidBet s pid 0 = true ↔
      (s.minRaise - betsGet s.bets pid ≤ 0 ∨ (s.bets.map Prod.snd).sum = 0)) ∧
    (∀ amt : Int, seat.stack < amt → isValidBet s pid amt = false) ∧
    isValidBet s pid seat.stack = true := by
  have hchar : ∀ amt : Int, amt ≠ seat.stack → amt < seat.stack →
      (isValidBet s pid amt = true ↔
        (amt = s.minRaise - betsGet s.bets pid ∨
         2 * (s.minRaise - betsGet s.bets pid) ≤ amt ∨
         (amt = 0 ∧ (s.bets.map Prod.snd).sum = 0))) := by
    intro amt hne hlt
    unfold isValidBet
    rw [hseat]
    simp only [if_pos hstack, if_neg hne, if_pos hlt, hallin]
    split
    · rename_i h
      simp only [true_iff]
      rcases h.2 with h2 | h2 | h2
      · exact Or.inl h2
      · exact Or.inr (Or.inl h2)
      · exact Or.inr (Or.inr h2)
    · rename_i h
      rw [if_neg (fun hcon => hcon.1 rfl)]
      simp only [Bool.false_eq_true, false_iff]
      intro hc
      apply h
      refine ⟨Or.inl trivial, ?_⟩
      rcases hc with hc | hc | hc
      · exact Or.inl hc
      · exact Or.inr (Or.inl hc)
      · exact Or.inr (Or.inr hc)
  refine ⟨?_, ?_, ?_, ?_⟩
  · intro amt h0 hlt
    rw [hchar amt (ne_of_lt hlt) hlt]
    constructor
    · rintro (h | h | h)
      · exact Or.inl h
      · exact Or.inr h
      · exact absurd h.1 (by omega)
    · rintro (h | h)
      · exact Or.inl h
      · exact Or.inr (Or.inl h)
  · rw [hchar 0 (ne_of_lt hstack) hstack]
    constructor
    · rintro (h | h | h)
      · omega
      · omega
      · exact Or.inr h.2
    · intro h
      rcases h with h | h
      · omega
      · exact Or.inr (Or.inr ⟨rfl, h⟩)
  · intro amt hgt
    unfold isValidBet
    rw [hseat]
    simp only [if_pos hstack, if_neg (by omega : ¬ amt = seat.stack),
      if_neg (by omega : ¬ amt < seat.stack)]
  · unfold isValidBet
    rw [hseat]
    simp [hstack]

/-- C4 witness: the amended zero-amount rule at the reachable state
where b's call gap is negative. -/
theorem c4_amended_witness :
    (isValidBet c4S2 "b" 0 = true ↔
      (c4S2.minRaise - betsGet c4S2.bets "b" ≤ 0 ∨
       (c4S2.bets.map Prod.snd).sum = 0)) ∧
    isValidBet c4S2 "b" 920 = true :=
  ⟨(c4_amended c4S2 "b" ⟨"b", 920⟩ (by decide) (by decide) (by decide)).2.1,
   (c4_amended c4S2 "b" ⟨"b", 920⟩ (by decide) (by decide) (by decide)).2.2.2⟩

end Hand
